import Mathlib

/-!
Verification of the baseview library core: the tabular data view engine
(src/table-view/table-view.js, src/table-view/table-view-row.js) and the grouped
field validation engine (src/basemodalview.js, validation mixin).

The JavaScript code is shallowly embedded: row records are values of an arbitrary
type with decidable equality (object identity becomes value equality of record
identifiers), the mutable table object becomes an explicit `TableState`, jQuery
and DOM rendering are dropped (they do not affect the data model), and the only
DOM facts the validation engine reads back - which form-groups carry which
validation class - are modelled as explicit lists of applied class names.
-/

namespace Baseview

/-! ## JavaScript value model

`omniSort` in table-view.js compares heterogeneous column values with the
JavaScript operators `==  null`, `typeof`, `===`, `>`, `-` and `valueOf`.  We
model the value domain with rational-valued numbers plus NaN (only comparison
and subtraction are used, so rationals are exact for every representable value),
strings, booleans, objects exposing a numeric `valueOf` (Date, Moment) and
objects without a usable `valueOf`. -/

inductive JSNum where
  | nan : JSNum
  | val : ℚ → JSNum
deriving DecidableEq

inductive JSVal where
  | null : JSVal
  | str : String → JSVal
  | num : JSNum → JSVal
  | bool : Bool → JSVal
  | objNum : JSNum → JSVal
  | objNone : JSVal
deriving DecidableEq

/-- JavaScript strict equality on numbers: `NaN === x` is false for every x. -/
def jsNumEq : JSNum → JSNum → Bool
  | JSNum.val a, JSNum.val b => a == b
  | _, _ => false

/-- JavaScript `>` on numbers: any comparison involving NaN is false. -/
def jsNumGt : JSNum → JSNum → Bool
  | JSNum.val a, JSNum.val b => decide (b < a)
  | _, _ => false

/-- JavaScript subtraction on numbers: NaN propagates. -/
def jsSub : JSNum → JSNum → JSNum
  | JSNum.val a, JSNum.val b => JSNum.val (a - b)
  | _, _ => JSNum.nan

/-- JavaScript ToNumber for strings, as seen by the subtraction in the
`valueOf` branch of omniSort (integer literals only; other strings give NaN). -/
def jsStrToNum (s : String) : JSNum :=
  if s = "" then JSNum.val 0
  else
    match s.toInt? with
    | some n => JSNum.val n
    | none => JSNum.nan

/-- Does `v.valueOf` exist (truthy)?  All primitives box to objects carrying
`valueOf`; only an object whose `valueOf` was removed or nulled lacks it. -/
def hasValueOf : JSVal → Bool
  | JSVal.objNone => false
  | JSVal.null => false
  | _ => true

/-- The number produced by coercing `v.valueOf()` inside the subtraction
`lhs.valueOf() - rhs.valueOf()` of omniSort. -/
def valueOfNum : JSVal → JSNum
  | JSVal.null => JSNum.nan
  | JSVal.str s => jsStrToNum s
  | JSVal.num n => n
  | JSVal.bool b => JSNum.val (if b then 1 else 0)
  | JSVal.objNum v => v
  | JSVal.objNone => JSNum.nan

/-- Truthiness of a JavaScript value (used by `!row[cp]` in
onToggleCheckboxes). -/
def truthy : JSVal → Bool
  | JSVal.null => false
  | JSVal.str s => !(s == "")
  | JSVal.num JSNum.nan => false
  | JSVal.num (JSNum.val q) => !(q == 0)
  | JSVal.bool b => b
  | JSVal.objNum _ => true
  | JSVal.objNone => true

/-! ## omniSort (table-view.js lines 906-982) -/

structure OmniOptions where
  nullsFirst : Bool
  blanksFirst : Bool

/-- The option object built in setupColInfos (table-view.js lines 204-207). -/
def defaultOmniOptions : OmniOptions := { nullsFirst := true, blanksFirst := true }

/-- The body of the comparator returned by `omniSort`, applied to the two
extracted property values.  `localeCompare` is the host string collation
function, an external collaborator. -/
def omniCompare (localeCompare : String → String → Int) (opts : OmniOptions) :
    JSVal → JSVal → JSNum := fun lhs rhs =>
  if lhs = JSVal.null then
    if rhs = JSVal.null then JSNum.val 0
    else if opts.nullsFirst then JSNum.val (-1) else JSNum.val 1
  else if rhs = JSVal.null then
    if opts.nullsFirst then JSNum.val 1 else JSNum.val (-1)
  else
    match lhs, rhs with
    | JSVal.str a, JSVal.str b =>
        if a.length = 0 then
          if b.length = 0 then JSNum.val 0
          else if opts.blanksFirst then JSNum.val (-1) else JSNum.val 1
        else if b.length = 0 then
          if opts.blanksFirst then JSNum.val 1 else JSNum.val (-1)
        else JSNum.val (localeCompare a b)
    | JSVal.num a, JSVal.num b =>
        if jsNumEq b a then JSNum.val 0
        else if jsNumGt b a then JSNum.val (-1)
        else JSNum.val 1
    | l, r =>
        if hasValueOf l && hasValueOf r then jsSub (valueOfNum l) (valueOfNum r)
        else JSNum.val 0

/-- A row record as omniSort sees it: a property map. -/
def JSRecord : Type := String → JSVal

/-- `omniSort(property, options)` returns a comparator over records that first
extracts `lhs[property]` and `rhs[property]`. -/
def omniSort (property : String) (localeCompare : String → String → Int)
    (opts : OmniOptions) : JSRecord → JSRecord → JSNum := fun lhs rhs =>
  omniCompare localeCompare opts (lhs property) (rhs property)

/-! ## Tabular data view engine state (table-view.js)

Rows are drawn from an arbitrary type with decidable equality: the JavaScript
code compares records only with `===` (object identity), which we model as
equality of values of the row type (instantiated with identifiers when record
mutation matters).  The engine fields kept are exactly the ones the data
algorithms read and write; DOM handles, renderers and the pager object are
presentation-only and dropped. -/

structure SortInfo where
  idx : Nat
  asc : Bool
deriving DecidableEq

structure TableState (ρ : Type) where
  allRows : List ρ
  data : List ρ
  filter : ρ → Bool
  page : Int
  pageSize : Nat
  sortInfo : Option SortInfo
  colSort : List (Option (ρ → ρ → Int))

variable {ρ : Type}

/-- `function returnTrue() { return true; }` - the default filter. -/
def returnTrue : ρ → Bool := fun _ => true

/-- The table constructed by `initialize` (table-view.js lines 33-90): the
filter defaults to returnTrue, data is the filtered copy of allRows, page 0,
no sort. -/
def initTable (rows : List ρ) (filter : Option (ρ → Bool))
    (colSort : List (Option (ρ → ρ → Int))) (pageSize : Nat) : TableState ρ :=
  { allRows := rows
    data := rows.filter (filter.getD returnTrue)
    filter := filter.getD returnTrue
    page := 0
    pageSize := pageSize
    sortInfo := none
    colSort := colSort }

/-- `setRows(rows)` (lines 614-623): replace allRows, refilter, page 0. -/
def setRows (s : TableState ρ) (rows : List ρ) : TableState ρ :=
  { s with allRows := rows, data := rows.filter s.filter, page := 0 }

/-- `setFilter(filter)` (lines 162-165): install the new filter (null means
returnTrue) and rebuild through setRows. -/
def setFilter (s : TableState ρ) (filter : Option (ρ → Bool)) : TableState ρ :=
  setRows { s with filter := filter.getD returnTrue } s.allRows

/-- `_pageCount()` (lines 571-573): `Math.floor((length + pageSize - 1) / pageSize)`. -/
def pageCountOf (s : TableState ρ) : Nat :=
  (s.data.length + s.pageSize - 1) / s.pageSize

/-- `onChangePage(e, page)` (lines 575-578): stores the page and re-renders.
There is no range check of any kind in the source. -/
def onChangePage (s : TableState ρ) (page : Int) : TableState ρ :=
  { s with page := page }

/-- `pageStart()` (lines 217-220): table index of the first row on the page. -/
def pageStart (s : TableState ρ) : Int :=
  s.page * s.pageSize

/-- `tableIndexToPage(tableIndex)` (lines 428-431):
`Math.floor(tableIndex / pageSize)`. -/
def tableIndexToPage (s : TableState ρ) (tableIndex : Int) : Int :=
  Int.fdiv tableIndex s.pageSize

/-- The boolean order JavaScript stable sort induces from a numeric
comparator. -/
def jsSortLe (cmp : ρ → ρ → Int) : ρ → ρ → Bool := fun a b =>
  decide (cmp a b ≤ 0)

/-- `onSort` data logic (lines 228-257): no comparator means no-op; clicking
the active sort column reverses data and flips `asc`; otherwise sort by the
comparator (JavaScript sort is stable, modelled by mergeSort) with
`{idx, asc: true}`.  Both mutating branches reset to page 0. -/
def onSort (s : TableState ρ) (idx : Nat) : TableState ρ :=
  match s.colSort.getD idx none with
  | none => s
  | some cmp =>
    match s.sortInfo with
    | some si =>
        if si.idx = idx then
          { s with data := s.data.reverse
                   sortInfo := some { idx := idx, asc := !si.asc }
                   page := 0 }
        else
          { s with data := s.data.mergeSort (jsSortLe cmp)
                   sortInfo := some { idx := idx, asc := true }
                   page := 0 }
    | none =>
        { s with data := s.data.mergeSort (jsSortLe cmp)
                 sortInfo := some { idx := idx, asc := true }
                 page := 0 }

/-- `add(data, options)` (lines 692-709): push onto both arrays (the filter is
never consulted), then jump to the page holding the new last index. -/
def addRow (s : TableState ρ) (r : ρ) : TableState ρ :=
  let data := s.data ++ [r]
  { s with allRows := s.allRows ++ [r]
           data := data
           page := tableIndexToPage s ((data.length : Int) - 1) }

/-- `_indexOfRow(index, data)` (lines 462-474): trust the remembered index if
it still holds the record, otherwise scan for the first identical record;
-1 when absent. -/
def indexOfRow [DecidableEq ρ] (s : TableState ρ) (index : Int) (d : ρ) : Int :=
  if 0 ≤ index ∧ s.data.get? index.toNat = some d then index
  else
    match s.data.findIdx? (fun x => x == d) with
    | some i => (i : Int)
    | none => -1

/-- JavaScript `arr[i] = v` for an integer index: in-range assignment updates,
a negative index (from a failed indexOf) leaves the array elements unchanged. -/
def listSetInt (l : List ρ) (i : Int) (a : ρ) : List ρ :=
  if 0 ≤ i then l.set i.toNat a else l

/-- `_removeTableIndex(index)` (lines 533-552).  `page` is the page of the row
ABOVE the removed one, clamped at 0; both arrays are spliced; only when that
page equals the current page does the code consider backing up, using `i`, the
index of the record in allRows.  (`indexOf` returning -1 makes `splice(-1, 1)`
drop the last element - modelled faithfully.) -/
def removeTableIndex [DecidableEq ρ] (s : TableState ρ) (index : Nat) : TableState ρ :=
  match s.data.get? index with
  | none => s
  | some row =>
    let page : Int := max 0 (tableIndexToPage s ((index : Int) - 1))
    let data := s.data.eraseIdx index
    let iInt : Int :=
      match s.allRows.findIdx? (fun x => x == row) with
      | some i => (i : Int)
      | none => -1
    let allRows :=
      match s.allRows.findIdx? (fun x => x == row) with
      | some i => s.allRows.eraseIdx i
      | none => s.allRows.dropLast
    let newPage : Int :=
      if page = s.page ∧ 0 < s.page ∧ (index : Int) = (data.length : Int) then
        tableIndexToPage s (iInt - 1)
      else s.page
    { s with data := data, allRows := allRows, page := newPage }

/-- `_replaceRow(index, oldData, newData)` (lines 493-516): resolve the index;
on failure return the sentinel -1 with nothing changed (console.assert does not
throw); on success overwrite both arrays and return the resolved index. -/
def replaceRow [DecidableEq ρ] (s : TableState ρ) (index : Int) (oldData newData : ρ) :
    Int × TableState ρ :=
  let i := indexOfRow s index oldData
  if i < 0 then (-1, s)
  else
    let allIndex : Int :=
      match s.allRows.findIdx? (fun x => x == oldData) with
      | some j => (j : Int)
      | none => -1
    (i, { s with data := listSetInt s.data i newData
                 allRows := listSetInt s.allRows allIndex newData })

/-- `_removeRow(index, data)` (lines 518-524): resolve, and only delete when
found; an unresolvable record is silently ignored. -/
def removeRow [DecidableEq ρ] (s : TableState ρ) (index : Int) (d : ρ) : TableState ρ :=
  let i := indexOfRow s index d
  if 0 ≤ i then removeTableIndex s i.toNat else s

/-! ## Row handles (table-view-row.js) -/

structure Row (ρ : Type) where
  index : Int
  data : ρ
deriving DecidableEq

/-- `Row.replace(newData)`: swap in a new record through `_replaceRow` and
remember the resolved index. -/
def rowReplace [DecidableEq ρ] (s : TableState ρ) (h : Row ρ) (newData : ρ) :
    Row ρ × TableState ρ :=
  let r := replaceRow s h.index h.data newData
  ({ index := r.1, data := newData }, r.2)

/-- `Row.update(newData)`: `$.extend` merges fields into the record in place,
preserving its identity, so the table-level call is
`_replaceRow(index, data, data)` with the very same record. -/
def rowUpdate [DecidableEq ρ] (s : TableState ρ) (h : Row ρ) : Row ρ × TableState ρ :=
  let r := replaceRow s h.index h.data h.data
  ({ index := r.1, data := h.data }, r.2)

/-- `Row.remove()`: only acts on a non-negative index, then marks the handle
removed with index -1. -/
def rowRemove [DecidableEq ρ] (s : TableState ρ) (h : Row ρ) : Row ρ × TableState ρ :=
  if 0 ≤ h.index then ({ h with index := -1 }, removeRow s h.index h.data)
  else (h, s)

/-! ## Checkbox bulk operations (table-view.js lines 656-675)

`row[cp] = ...` mutates the record object shared between `data` and `allRows`.
We make the sharing explicit: rows are identifiers into a store of records, and
`forEach` over `this.data` folds the per-record mutation over the store. -/

/-- `row[cp] = v` on one record. -/
def setProp (r : JSRecord) (cp : String) (v : JSVal) : JSRecord := fun k =>
  if k = cp then v else r k

/-- `this.data.forEach(function(row) { ... })` where the body rewrites the
record: fold the rewrite over the listed identifiers, mutating the store. -/
def forEachSet (f : JSRecord → JSRecord) (ids : List Nat) (store : Nat → JSRecord) :
    Nat → JSRecord :=
  ids.foldl (fun st id => Function.update st id (f (st id))) store

/-- `onCheckAll` (lines 656-661). -/
def onCheckAll (s : TableState Nat) (cp : String) (store : Nat → JSRecord) :
    Nat → JSRecord :=
  forEachSet (fun r => setProp r cp (JSVal.bool true)) s.data store

/-- `onUncheckAll` (lines 663-668). -/
def onUncheckAll (s : TableState Nat) (cp : String) (store : Nat → JSRecord) :
    Nat → JSRecord :=
  forEachSet (fun r => setProp r cp (JSVal.bool false)) s.data store

/-- `onToggleCheckboxes` (lines 670-675): `row[cp] = !row[cp]`. -/
def onToggleCheckboxes (s : TableState Nat) (cp : String) (store : Nat → JSRecord) :
    Nat → JSRecord :=
  forEachSet (fun r => setProp r cp (JSVal.bool (!truthy (r cp)))) s.data store

/-! ## Grouped field validation engine (basemodalview.js, validation mixin)

A control is addressed by name.  The environment gives, per name, whether a
matching control exists in the current field collection and - since the
user-supplied rule functions are external collaborators - the class name the
rule returns for the control's current value (`none` meaning valid).  The
classes applied to form-groups (the only DOM state `validate` reads back via
the `.has-error` / `.has-warning` selectors) are modelled as explicit lists. -/

/-- One compiled entry of `_validations` (the parts `validate` consults). -/
structure VSettings where
  group : Option String
  mayNotExist : Bool
  generated : Bool
deriving DecidableEq

/-- The `classes` array of `_applyValidationClasses` (line 508):
`[ null, 'has-success', 'has-warning', 'has-error' ]`. -/
def validationClasses : List (Option String) :=
  [none, some "has-success", some "has-warning", some "has-error"]

/-- `classes.indexOf(className)` for a non-null class name. -/
def classesIndexOf (c : String) : Int :=
  match validationClasses.findIdx? (fun x => x == some c) with
  | some i => (i : Int)
  | none => -1

/-- The `reduce` of `_applyValidationClasses` (lines 510-514): fold the list of
cached class names, skipping null entries, taking the max index, starting
at 0. -/
def maxClassIndex (classNames : List (Option String)) : Int :=
  classNames.foldl
    (fun prev c =>
      match c with
      | none => prev
      | some cls => max prev (classesIndexOf cls))
    0

/-- `_applyValidationClasses(target, classNames)` (lines 495-518): the class
finally put on the form-group - `classes[maxIndex]` when maxIndex > 0, no
class otherwise. -/
def applyValidationClasses (classNames : List (Option String)) : Option String :=
  let m := maxClassIndex classNames
  if 0 < m then validationClasses.getD m.toNat none else none

/-- `this._groupValidationClasses[group][name] = className`: overwrite the
entry for `name` in place, or append a fresh one (object key insertion
order). -/
def updEntry : List (String × Option String) → String → Option String →
    List (String × Option String)
  | [], name, v => [(name, v)]
  | (n, w) :: rest, name, v =>
      if n = name then (n, v) :: rest
      else (n, w) :: updEntry rest name v

/-- Update the per-group cache object: find (or create) the group, then write
the control's class into it. -/
def updGroup : List (String × List (String × Option String)) → String → String →
    Option String → List (String × List (String × Option String))
  | [], g, name, v => [(g, [(name, v)])]
  | (g', ctrls) :: rest, g, name, v =>
      if g' = g then (g', updEntry ctrls name v) :: rest
      else (g', ctrls) :: updGroup rest g name v

/-- The control environment: `none` when `this.$('[name=...]')` finds nothing,
otherwise the class name the settings rule returns for the current value. -/
def ControlEnv : Type := String → Option (Option String)

/-- The mutable validation state of the view. -/
structure VState where
  validations : List (String × VSettings)
  controlResult : ControlEnv
  groupClasses : List (String × List (String × Option String))
  warningButton : Bool
  warningMode : Bool
  appliedClasses : List (Option String)

/-- The per-control loop of `validate` (lines 527-551): skip absent
mayNotExist/generated controls, throw for other missing controls, run
`_validateField` for the rest - a non-group control gets
`_applyValidationClasses(target, [className])` immediately, a group control
caches its class in `_groupValidationClasses`. -/
def validateControls : List (String × VSettings) → ControlEnv →
    List (String × List (String × Option String)) → List (Option String) →
    Except String (List (Option String) × List (String × List (String × Option String)))
  | [], _, cache, applied => Except.ok (applied, cache)
  | (name, st) :: rest, cr, cache, applied =>
      match cr name with
      | none =>
          if st.mayNotExist || st.generated then validateControls rest cr cache applied
          else Except.error ("Validation setup failed - there is no control named " ++ name)
      | some res =>
          match st.group with
          | none =>
              validateControls rest cr cache (applied ++ [applyValidationClasses [res]])
          | some g =>
              validateControls rest cr (updGroup cache g name res) applied

/-- The group loop of `validate` (lines 555-566): for each cached group with at
least one control, look its first control up in the document; when present,
apply the max class of the cached values to its form-group. -/
def resolveGroups (cr : ControlEnv) :
    List (String × List (String × Option String)) → List (Option String)
  | [] => []
  | (_, ctrls) :: rest =>
      match ctrls with
      | [] => resolveGroups cr rest
      | (first, _) :: _ =>
          match cr first with
          | none => resolveGroups cr rest
          | some _ => applyValidationClasses (ctrls.map (fun p => p.2)) :: resolveGroups cr rest

/-- `validate()` (lines 519-588).  After the two loops, failure when any
form-group carries `has-error`; else, with the warning button enabled and not
yet in warning mode, a `has-warning` form-group switches on warning mode and
fails; otherwise success.  A control that is missing without being marked
mayNotExist or generated throws (the SetupError policy). -/
def validate (s : VState) : Except String (Bool × VState) :=
  match validateControls s.validations s.controlResult s.groupClasses [] with
  | Except.error e => Except.error e
  | Except.ok (applied, cache) =>
      let allClasses := applied ++ resolveGroups s.controlResult cache
      let s1 := { s with groupClasses := cache, appliedClasses := allClasses }
      if allClasses.contains (some "has-error") then Except.ok (false, s1)
      else if s.warningButton && !s.warningMode && allClasses.contains (some "has-warning") then
        Except.ok (false, { s1 with warningMode := true })
      else Except.ok (true, s1)

/-- Modelled from the spec: the severity scale `none < success < warning <
error` used for group reduction, as a rank. -/
def severityRank : Option String → Nat
  | none => 0
  | some c => if c = "has-success" then 1 else if c = "has-warning" then 2 else 3

/-- Modelled from the spec: the class carrying a given severity rank. -/
def severityClass (n : Nat) : Option String :=
  validationClasses.getD n none

/-- Modelled from the spec: max-severity reduction with absent entries
counting as none. -/
def specMaxSeverity (classNames : List (Option String)) : Nat :=
  classNames.foldl (fun m c => max m (severityRank c)) 0

/-! ## Operation sequences over the table (for the FilteredView invariant) -/

inductive TableOp (ρ : Type) where
  | setRowsOp (rows : List ρ)
  | setFilterOp (f : Option (ρ → Bool))
  | sortByColumnOp (idx : Nat)

def applyOp (s : TableState ρ) : TableOp ρ → TableState ρ
  | TableOp.setRowsOp rows => setRows s rows
  | TableOp.setFilterOp f => setFilter s f
  | TableOp.sortByColumnOp idx => onSort s idx

def applyOps (s : TableState ρ) (ops : List (TableOp ρ)) : TableState ρ :=
  ops.foldl applyOp s

def isSortOp : TableOp ρ → Bool
  | TableOp.sortByColumnOp _ => true
  | _ => false

/-! ## Proof-side helpers for the validation engine

The per-control loop is re-expressed as the non-group classes it applies plus
the stream of group-cache writes it performs; the cache is then the fold of
those writes.  These are used to reason about `validateControls`, whose
behaviour they reproduce (proved below). -/

/-- Classes applied directly (non-group controls), in order. -/
def ngClasses : List (String × VSettings) → ControlEnv → List (Option String)
  | [], _ => []
  | (n, st) :: rest, cr =>
      match cr n with
      | none => ngClasses rest cr
      | some res =>
          match st.group with
          | none => applyValidationClasses [res] :: ngClasses rest cr
          | some _ => ngClasses rest cr

/-- Group-cache writes (group, control, class), in order. -/
def gUpds : List (String × VSettings) → ControlEnv → List (String × String × Option String)
  | [], _ => []
  | (n, st) :: rest, cr =>
      match cr n with
      | none => gUpds rest cr
      | some res =>
          match st.group with
          | none => gUpds rest cr
          | some g => (g, n, res) :: gUpds rest cr

/-- Fold a stream of cache writes. -/
def applyUpds : List (String × List (String × Option String)) →
    List (String × String × Option String) → List (String × List (String × Option String))
  | cache, [] => cache
  | cache, (g, n, v) :: rest => applyUpds (updGroup cache g n v) rest

/-- The control names a write stream touches. -/
def updNames (us : List (String × String × Option String)) : List String :=
  us.map (fun u => u.2.1)

/-- Look a control class up in the group cache (first matching group, first
matching control). -/
def cacheLookup (cache : List (String × List (String × Option String)))
    (g n : String) : Option (Option String) :=
  match cache.find? (fun p => p.1 == g) with
  | none => none
  | some p =>
      match p.2.find? (fun q => q.1 == n) with
      | none => none
      | some q => some q.2

/-- The class rank the implementation fold effectively uses
(`classes.indexOf` with unknown classes clamped by the max with the running
index, which never drops below 0). -/
def jsRank : Option String → Nat
  | none => 0
  | some c =>
      if c = "has-success" then 1
      else if c = "has-warning" then 2
      else if c = "has-error" then 3
      else 0

/-- Natural-number form of `maxClassIndex`. -/
def natMaxClass (l : List (Option String)) : Nat :=
  l.foldl (fun m c => max m (jsRank c)) 0

/-- The full list of classes one `validate` pass applies to form-groups
(non-group controls first, then the groups), when it does not throw. -/
def appliedOf (s : VState) : List (Option String) :=
  match validateControls s.validations s.controlResult s.groupClasses [] with
  | Except.error _ => []
  | Except.ok (applied, cache) => applied ++ resolveGroups s.controlResult cache

/-- The state one non-throwing `validate` pass produces before the
warning-mode decision: updated group cache and applied classes. -/
def runState (s : VState) : VState :=
  { s with
    groupClasses := applyUpds s.groupClasses (gUpds s.validations s.controlResult)
    appliedClasses := appliedOf s }

/-- Result projection of `validate`, for closed-form scenarios. -/
def validateResult (s : VState) : Option Bool :=
  match validate s with
  | Except.ok (r, _) => some r
  | Except.error _ => none

/-- Applied-classes projection of `validate`, for closed-form scenarios. -/
def validateApplied (s : VState) : Option (List (Option String)) :=
  match validate s with
  | Except.ok (_, t) => some t.appliedClasses
  | Except.error _ => none

/-! ## Concrete states used by counterexamples, bug witnesses and witnesses -/

/-- Five rows, page size 2: page count 3, last page holds one record. -/
def exC1 : TableState Nat :=
  { allRows := [1, 2, 3, 4, 5]
    data := [1, 2, 3, 4, 5]
    filter := returnTrue
    page := 0
    pageSize := 2
    sortInfo := none
    colSort := [] }

/-- Same shape, sitting on the last page (page 2) whose sole record has table
index 4. -/
def exC2 : TableState Nat :=
  { allRows := [10, 11, 12, 13, 14]
    data := [10, 11, 12, 13, 14]
    filter := returnTrue
    page := 2
    pageSize := 2
    sortInfo := none
    colSort := [] }

/-- A record whose sort property is NaN. -/
def nanRecord : JSRecord := fun _ => JSVal.num JSNum.nan

/-- A two-row table for the stale-handle scenario. -/
def exC6 : TableState Nat :=
  { allRows := [1, 2]
    data := [1, 2]
    filter := returnTrue
    page := 0
    pageSize := 1000000
    sortInfo := none
    colSort := [] }

/-- A handle whose record (99) is no longer present in exC6. -/
def staleRow : Row Nat := { index := 0, data := 99 }

/-- A table with one sortable column for the sort witness. -/
def exC4 : TableState Nat :=
  { allRows := [3, 1, 2]
    data := [3, 1, 2]
    filter := returnTrue
    page := 5
    pageSize := 10
    sortInfo := none
    colSort := [some (fun a b => (a : Int) - (b : Int))] }

/-- The spec scenario for group resolution: rule of `a{g}` returns error, rule
of `b{g}` returns nothing. -/
def scenarioC8 : VState :=
  { validations :=
      [("a", { group := some "g", mayNotExist := false, generated := false }),
       ("b", { group := some "g", mayNotExist := false, generated := false })]
    controlResult := fun n =>
      if n = "a" then some (some "has-error")
      else if n = "b" then some none
      else none
    groupClasses := []
    warningButton := false
    warningMode := false
    appliedClasses := [] }

/-- A table whose filter rejects records not below 2. -/
def exC9 : TableState Nat :=
  { allRows := [1]
    data := [1]
    filter := fun n => decide (n < 2)
    page := 0
    pageSize := 3
    sortInfo := none
    colSort := [] }

/-- An all-null record store. -/
def storeZero : Nat → JSRecord := fun _ _ => JSVal.null

/-- A freshly constructed table with a filter keeping values below 3. -/
def exC3 : TableState Nat :=
  initTable [1, 2, 3] (some fun n => decide (n < 3)) [] 10

/-- One structural operation, no sort. -/
def exC3ops : List (TableOp Nat) := [TableOp.setRowsOp [2, 3]]

/-- A form with one warning field and one absent optional field, warning
acknowledgement enabled. -/
def exC7 : VState :=
  { validations :=
      [("w", { group := none, mayNotExist := false, generated := false }),
       ("m", { group := none, mayNotExist := true, generated := false })]
    controlResult := fun n =>
      if n = "w" then some (some "has-warning") else none
    groupClasses := []
    warningButton := true
    warningMode := false
    appliedClasses := [] }

/-! # Theorems -/

/-- Claim C1, counterexample to the claim as stated: on exC1 (five rows, page
size 2) the page count is 3, yet `onChangePage` at page 3 = pageCount does not
fail with an OutOfRangeError - the source has no range check at all - it sets
the current page to 3, whose window begins at table index 6, past the data. -/
theorem claim_C1_counterexample :
    pageCountOf exC1 = 3 ∧
    (onChangePage exC1 3).page = 3 ∧
    (onChangePage exC1 3).data = exC1.data ∧
    ((onChangePage exC1 3).data.length : Int) ≤ pageStart (onChangePage exC1 3) := by
  exact ⟨by decide, rfl, rfl, by decide⟩

/-- Claim C1 (amended): with positive page size, `_pageCount` is exactly the
ceiling of length / pageSize - characterised by the Galois property of ceiling
division - and is 0 on an empty view; `goToPage(n)` performs no range
validation whatsoever: it sets the current page to n for every n, including
n = pageCount and beyond, and never fails. -/
theorem claim_C1_amended (s : TableState ρ) (hP : 0 < s.pageSize) :
    (∀ c : Nat, pageCountOf s ≤ c ↔ s.data.length ≤ s.pageSize * c) ∧
    (s.data.length = 0 → pageCountOf s = 0) ∧
    (∀ n : Int, (onChangePage s n).page = n) := by
  refine ⟨fun c => ?_, fun h => ?_, fun n => rfl⟩
  · have he : pageCountOf s = s.data.length ⌈/⌉ s.pageSize :=
      (Nat.ceilDiv_eq_add_pred_div _ _).symm
    rw [he]
    exact ceilDiv_le_iff_le_mul hP
  · unfold pageCountOf
    rw [h]
    exact Nat.div_eq_of_lt (by omega)

/-- Witness for claim C1 (amended) at concrete inputs. -/
theorem claim_C1_amended_witness :
    (pageCountOf exC1 ≤ 3 ↔ exC1.data.length ≤ exC1.pageSize * 3) ∧
    (onChangePage exC1 7).page = 7 :=
  ⟨(claim_C1_amended exC1 (by decide)).1 3,
   (claim_C1_amended exC1 (by decide)).2.2 7⟩

/-- Claim C2, evaluated at the failing input: exC2 sits on page 2, the last
page, holding exactly the sole record at table index 4 (pageCount 3, window
[4,6)).  `_removeTableIndex(4)` is supposed to back the page up - the code
comment reads "We deleted the last item.  Back up a page." - but its guard
compares the page of index-1 (page 1) with the current page (2), so the
back-up branch never runs: the page stays 2, whose window now starts at 4,
the new length - an empty page is presented instead of decrementing to 1. -/
theorem claim_C2_code_bug :
    pageCountOf exC2 = 3 ∧
    exC2.page = 2 ∧
    exC2.data.get? 4 = some 14 ∧
    exC2.data.length = 5 ∧
    (removeTableIndex exC2 4).data = [10, 11, 12, 13] ∧
    (removeTableIndex exC2 4).allRows = [10, 11, 12, 13] ∧
    (removeTableIndex exC2 4).page = 2 ∧
    pageStart (removeTableIndex exC2 4) = 4 := by
  exact ⟨by decide, by decide, by decide, by decide, by decide, by decide,
         by decide, by decide⟩

/-- Claim C9: `add` appends the record to the end of both allRows and the
filtered data without consulting the filter - the record lands in FilteredView
even when the active filter rejects it - and the current page becomes the page
holding the new last index. -/
theorem claim_C9 (s : TableState ρ) (r : ρ) :
    (addRow s r).allRows = s.allRows ++ [r] ∧
    (addRow s r).data = s.data ++ [r] ∧
    (s.filter r = false → r ∈ (addRow s r).data) ∧
    (addRow s r).page = tableIndexToPage s (((addRow s r).data.length : Int) - 1) := by
  refine ⟨rfl, rfl, fun _ => ?_, rfl⟩
  show r ∈ s.data ++ [r]
  simp

/-- Witness for claim C9: adding 7 to a table whose filter rejects 7 still
places 7 in the filtered data. -/
theorem claim_C9_witness : 7 ∈ (addRow exC9 7).data :=
  (claim_C9 exC9 7).2.2.1 (by decide)

/-- Unfolding step for forEachSet. -/
theorem forEachSet_cons (f : JSRecord → JSRecord) (i : Nat) (t : List Nat)
    (store : Nat → JSRecord) :
    forEachSet f (i :: t) store =
      forEachSet f t (Function.update store i (f (store i))) := rfl

/-- Records not listed are never touched by a forEach mutation. -/
theorem forEachSet_not_mem (f : JSRecord → JSRecord) (ids : List Nat)
    (store : Nat → JSRecord) (id : Nat) (h : id ∉ ids) :
    forEachSet f ids store id = store id := by
  induction ids generalizing store with
  | nil => rfl
  | cons i t ih =>
    have hne : id ≠ i := fun e => h (e ▸ List.mem_cons_self i t)
    have ht : id ∉ t := fun m => h (List.mem_cons_of_mem i m)
    rw [forEachSet_cons, ih _ ht, Function.update_noteq hne]

/-- Fields the per-record mutation leaves alone are left alone everywhere. -/
theorem forEachSet_frame (f : JSRecord → JSRecord) (cp : String)
    (hf : ∀ r k, k ≠ cp → f r k = r k) (ids : List Nat) (store : Nat → JSRecord)
    (id : Nat) (k : String) (hk : k ≠ cp) :
    forEachSet f ids store id k = store id k := by
  induction ids generalizing store with
  | nil => rfl
  | cons i t ih =>
    rw [forEachSet_cons, ih (Function.update store i (f (store i)))]
    by_cases h : id = i
    · subst h
      rw [Function.update_same]
      exact hf _ _ hk
    · rw [Function.update_noteq h]

/-- Claim C10: the bulk checkbox operations write only the checkbox property
and only on records currently in FilteredView - a record filtered out of view
is untouched entirely, and every other field of every record is unchanged. -/
theorem claim_C10 (s : TableState Nat) (cp : String) (store : Nat → JSRecord) :
    (∀ id, id ∉ s.data →
        onCheckAll s cp store id = store id ∧
        onUncheckAll s cp store id = store id ∧
        onToggleCheckboxes s cp store id = store id) ∧
    (∀ id k, k ≠ cp →
        onCheckAll s cp store id k = store id k ∧
        onUncheckAll s cp store id k = store id k ∧
        onToggleCheckboxes s cp store id k = store id k) := by
  have hframe : ∀ v : JSVal, ∀ r : JSRecord, ∀ k, k ≠ cp → setProp r cp v k = r k := by
    intro v r k hk
    unfold setProp
    rw [if_neg hk]
  refine ⟨fun id h => ⟨?_, ?_, ?_⟩, fun id k hk => ⟨?_, ?_, ?_⟩⟩
  · exact forEachSet_not_mem _ _ _ _ h
  · exact forEachSet_not_mem _ _ _ _ h
  · exact forEachSet_not_mem _ _ _ _ h
  · exact forEachSet_frame _ cp (fun r k hk => hframe _ r k hk) _ _ _ _ hk
  · exact forEachSet_frame _ cp (fun r k hk => hframe _ r k hk) _ _ _ _ hk
  · exact forEachSet_frame _ cp
      (fun r k hk => hframe (JSVal.bool (!truthy (r cp))) r k hk) _ _ _ _ hk

/-- Witness for claim C10 at concrete inputs. -/
theorem claim_C10_witness :
    onCheckAll exC1 "__checked" storeZero 9 = storeZero 9 ∧
    onToggleCheckboxes exC1 "__checked" storeZero 1 "name" = storeZero 1 "name" :=
  ⟨((claim_C10 exC1 "__checked" storeZero).1 9 (by decide)).1,
   ((claim_C10 exC1 "__checked" storeZero).2 1 "name" (by decide)).2.2⟩

/-- A string has length 0 exactly when it is empty. -/
theorem string_length_zero_iff (s : String) : s.length = 0 ↔ s = "" := by
  constructor
  · intro h
    cases s with
    | mk data =>
      cases data with
      | nil => rfl
      | cons a t => simp [String.length] at h
  · intro h
    subst h
    rfl

/-- Claim C5, counterexample to the claim as stated: the default comparator on
a NaN-valued property compares the record with itself as 1, not 0 - in the
number branch `rhs === lhs` is false for NaN (IEEE/JS strict equality) and
`rhs > lhs` is false too, so the final `1` is returned. -/
theorem claim_C5_counterexample :
    omniSort "v" (fun _ _ => 0) defaultOmniOptions nanRecord nanRecord = JSNum.val 1 ∧
    JSNum.val 1 ≠ JSNum.val 0 := by
  exact ⟨rfl, by decide⟩

/-- Claim C5 (amended): the default comparator (omniSort with nullsFirst and
blanksFirst) implements the tie-break policy: both null gives 0; null ranks
first against any non-null value; the empty string ranks first among strings;
nonempty string pairs defer to the locale comparison; non-NaN number pairs
compare arithmetically; any number pair with a NaN operand - including NaN
against itself - yields 1 (not 0: NaN is strictly-equal and greater-than
nothing); value pairs exposing numeric coercion (dates, booleans) compare by
the difference of the coerced values; pairs where an operand has no numeric
coercion compare as equal; and the record comparator is the value comparator
on the extracted property. -/
theorem claim_C5_amended (lc : String → String → Int) :
    (omniCompare lc defaultOmniOptions JSVal.null JSVal.null = JSNum.val 0) ∧
    (∀ v, v ≠ JSVal.null →
        omniCompare lc defaultOmniOptions JSVal.null v = JSNum.val (-1) ∧
        omniCompare lc defaultOmniOptions v JSVal.null = JSNum.val 1) ∧
    (∀ t, t ≠ "" →
        omniCompare lc defaultOmniOptions (JSVal.str "") (JSVal.str t) = JSNum.val (-1) ∧
        omniCompare lc defaultOmniOptions (JSVal.str t) (JSVal.str "") = JSNum.val 1) ∧
    (omniCompare lc defaultOmniOptions (JSVal.str "") (JSVal.str "") = JSNum.val 0) ∧
    (∀ a b, a ≠ "" → b ≠ "" →
        omniCompare lc defaultOmniOptions (JSVal.str a) (JSVal.str b) = JSNum.val (lc a b)) ∧
    (∀ x y : ℚ,
        omniCompare lc defaultOmniOptions (JSVal.num (JSNum.val x)) (JSVal.num (JSNum.val y)) =
          JSNum.val (if x = y then 0 else if x < y then -1 else 1)) ∧
    (∀ n, omniCompare lc defaultOmniOptions (JSVal.num JSNum.nan) (JSVal.num n) = JSNum.val 1 ∧
          omniCompare lc defaultOmniOptions (JSVal.num n) (JSVal.num JSNum.nan) = JSNum.val 1) ∧
    (∀ x y, omniCompare lc defaultOmniOptions (JSVal.objNum x) (JSVal.objNum y) = jsSub x y) ∧
    (∀ u v : Bool,
        omniCompare lc defaultOmniOptions (JSVal.bool u) (JSVal.bool v) =
          JSNum.val ((if u then 1 else 0) - (if v then 1 else 0))) ∧
    (omniCompare lc defaultOmniOptions JSVal.objNone JSVal.objNone = JSNum.val 0) ∧
    (∀ x, omniCompare lc defaultOmniOptions JSVal.objNone (JSVal.objNum x) = JSNum.val 0 ∧
          omniCompare lc defaultOmniOptions (JSVal.objNum x) JSVal.objNone = JSNum.val 0) ∧
    (∀ p r1 r2, omniSort p lc defaultOmniOptions r1 r2 =
        omniCompare lc defaultOmniOptions (r1 p) (r2 p)) := by
  refine ⟨rfl, ?_, ?_, rfl, ?_, ?_, ?_, fun x y => rfl, fun u v => rfl, rfl,
          fun x => ⟨rfl, rfl⟩, fun p r1 r2 => rfl⟩
  · intro v hv
    cases v with
    | null => exact absurd rfl hv
    | str a => exact ⟨rfl, rfl⟩
    | num n => exact ⟨rfl, rfl⟩
    | bool b => exact ⟨rfl, rfl⟩
    | objNum m => exact ⟨rfl, rfl⟩
    | objNone => exact ⟨rfl, rfl⟩
  · intro t ht
    have hlen : ¬t.length = 0 := fun h => ht ((string_length_zero_iff t).1 h)
    constructor
    · simp [omniCompare, defaultOmniOptions, hlen]
    · simp [omniCompare, defaultOmniOptions, hlen]
  · intro a b ha hb
    have hla : ¬a.length = 0 := fun h => ha ((string_length_zero_iff a).1 h)
    have hlb : ¬b.length = 0 := fun h => hb ((string_length_zero_iff b).1 h)
    simp [omniCompare, defaultOmniOptions, hla, hlb]
  · intro x y
    by_cases hxy : x = y
    · subst hxy
      simp [omniCompare, jsNumEq, jsNumGt]
    · by_cases hlt : x < y
      · simp [omniCompare, jsNumEq, jsNumGt, hxy, Ne.symm hxy, hlt]
      · simp [omniCompare, jsNumEq, jsNumGt, hxy, Ne.symm hxy, hlt]
  · intro n
    cases n with
    | nan => exact ⟨rfl, rfl⟩
    | val q => exact ⟨rfl, rfl⟩

/-- Witness for claim C5 (amended) at concrete inputs. -/
theorem claim_C5_amended_witness :
    omniCompare (fun _ _ => 0) defaultOmniOptions JSVal.null (JSVal.str "x") = JSNum.val (-1) ∧
    omniCompare (fun _ _ => 0) defaultOmniOptions (JSVal.str "") (JSVal.str "x") = JSNum.val (-1) ∧
    omniCompare (fun _ _ => 0) defaultOmniOptions (JSVal.str "a") (JSVal.str "b") =
      JSNum.val ((fun _ _ => (0 : Int)) "a" "b") :=
  ⟨((claim_C5_amended (fun _ _ => 0)).2.1 (JSVal.str "x") (by decide)).1,
   ((claim_C5_amended (fun _ _ => 0)).2.2.1 "x" (by decide)).1,
   (claim_C5_amended (fun _ _ => 0)).2.2.2.2.1 "a" "b" (by decide) (by decide)⟩

/-- A record absent from the data cannot be resolved: `_indexOfRow` returns
the -1 sentinel. -/
theorem indexOfRow_not_mem [DecidableEq ρ] (s : TableState ρ) (index : Int) (d : ρ)
    (h : d ∉ s.data) : indexOfRow s index d = -1 := by
  unfold indexOfRow
  rw [if_neg]
  · have hnone : s.data.findIdx? (fun x => x == d) = none := by
      rw [List.findIdx?_eq_none_iff]
      intro x hx
      exact beq_eq_false_iff_ne.2 (fun e => h (e ▸ hx))
    rw [hnone]
  · rintro ⟨-, hget⟩
    exact h (List.get?_mem hget)

/-- Claim C6, counterexample to the claim as stated: on exC6 the handle for
record 99 (no longer present) is stale, yet replace, update and remove all
return normally - replace and update resolve to the sentinel index -1 with the
table untouched, remove does nothing.  No StaleHandleError (or any other
failure) is raised; the code only calls console.assert, which does not
throw. -/
theorem claim_C6_counterexample :
    (rowReplace exC6 staleRow 77).1 = { index := -1, data := 77 } ∧
    (rowReplace exC6 staleRow 77).2.data = [1, 2] ∧
    (rowReplace exC6 staleRow 77).2.allRows = [1, 2] ∧
    (rowUpdate exC6 staleRow).1 = { index := -1, data := 99 } ∧
    (rowUpdate exC6 staleRow).2.data = [1, 2] ∧
    (rowRemove exC6 staleRow).1 = { index := -1, data := 99 } ∧
    (rowRemove exC6 staleRow).2.data = [1, 2] ∧
    (rowRemove exC6 staleRow).2.allRows = [1, 2] := by
  exact ⟨by decide, by decide, by decide, by decide, by decide, by decide,
         by decide, by decide⟩

/-- Claim C6 (amended): on a handle whose record is no longer present,
`replace` and `update` fail silently - they return the sentinel index -1 and
leave the table state unchanged - and `remove` is a silent no-op (a handle
already marked removed, index -1, skips the table call entirely).  None of the
three raises any error. -/
theorem claim_C6_amended [DecidableEq ρ] (s : TableState ρ) (h : Row ρ) (newData : ρ)
    (hstale : h.data ∉ s.data) :
    rowReplace s h newData = ({ index := -1, data := newData }, s) ∧
    rowUpdate s h = ({ index := -1, data := h.data }, s) ∧
    (rowRemove s h).2 = s ∧
    (rowRemove s h).1 = (if 0 ≤ h.index then { h with index := -1 } else h) := by
  have hidx : indexOfRow s h.index h.data = -1 :=
    indexOfRow_not_mem s h.index h.data hstale
  have hrep : ∀ nd, replaceRow s h.index h.data nd = (-1, s) := by
    intro nd
    unfold replaceRow
    rw [hidx]
    norm_num
  have hrem : removeRow s h.index h.data = s := by
    unfold removeRow
    rw [hidx]
    norm_num
  refine ⟨?_, ?_, ?_, ?_⟩
  · unfold rowReplace
    rw [hrep]
  · unfold rowUpdate
    rw [hrep]
  · unfold rowRemove
    by_cases hge : 0 ≤ h.index
    · rw [if_pos hge, hrem]
    · rw [if_neg hge]
  · unfold rowRemove
    by_cases hge : 0 ≤ h.index
    · rw [if_pos hge, if_pos hge]
    · rw [if_neg hge, if_neg hge]

/-- Witness for claim C6 (amended) at concrete inputs. -/
theorem claim_C6_amended_witness :
    rowReplace exC6 staleRow 77 = ({ index := -1, data := 77 }, exC6) ∧
    rowUpdate exC6 staleRow = ({ index := -1, data := 99 }, exC6) :=
  ⟨(claim_C6_amended exC6 staleRow 77 (by decide)).1,
   (claim_C6_amended exC6 staleRow 77 (by decide)).2.1⟩

/-- One structural operation preserves the FilteredView membership
invariants: every displayed record is in allRows and passes the current
filter. -/
theorem applyOp_mem_inv (s : TableState ρ) (op : TableOp ρ)
    (h1 : ∀ r ∈ s.data, r ∈ s.allRows) (h2 : ∀ r ∈ s.data, s.filter r = true) :
    (∀ r ∈ (applyOp s op).data, r ∈ (applyOp s op).allRows) ∧
    (∀ r ∈ (applyOp s op).data, (applyOp s op).filter r = true) := by
  cases op with
  | setRowsOp rows =>
    exact ⟨fun r hr => (List.mem_filter.1 hr).1, fun r hr => (List.mem_filter.1 hr).2⟩
  | setFilterOp f =>
    exact ⟨fun r hr => (List.mem_filter.1 hr).1, fun r hr => (List.mem_filter.1 hr).2⟩
  | sortByColumnOp idx =>
    show (∀ r ∈ (onSort s idx).data, r ∈ (onSort s idx).allRows) ∧
         (∀ r ∈ (onSort s idx).data, (onSort s idx).filter r = true)
    unfold onSort
    cases hc : s.colSort.getD idx none with
    | none => exact ⟨h1, h2⟩
    | some cmp =>
      cases hsi : s.sortInfo with
      | none =>
        dsimp only
        refine ⟨fun r hr => h1 r ?_, fun r hr => h2 r ?_⟩ <;>
          exact (List.mergeSort_perm s.data (jsSortLe cmp)).mem_iff.1 hr
      | some si =>
        dsimp only
        by_cases hidx : si.idx = idx
        · rw [if_pos hidx]
          exact ⟨fun r hr => h1 r (List.mem_reverse.1 hr),
                 fun r hr => h2 r (List.mem_reverse.1 hr)⟩
        · rw [if_neg hidx]
          refine ⟨fun r hr => h1 r ?_, fun r hr => h2 r ?_⟩ <;>
            exact (List.mergeSort_perm s.data (jsSortLe cmp)).mem_iff.1 hr

/-- The membership invariants hold after any sequence of operations. -/
theorem applyOps_mem_inv (s : TableState ρ) (ops : List (TableOp ρ))
    (h1 : ∀ r ∈ s.data, r ∈ s.allRows) (h2 : ∀ r ∈ s.data, s.filter r = true) :
    (∀ r ∈ (applyOps s ops).data, r ∈ (applyOps s ops).allRows) ∧
    (∀ r ∈ (applyOps s ops).data, (applyOps s ops).filter r = true) := by
  induction ops generalizing s with
  | nil => exact ⟨h1, h2⟩
  | cons op t ih =>
    have h := applyOp_mem_inv s op h1 h2
    exact ih (applyOp s op) h.1 h.2

/-- Without a sort, FilteredView is literally allRows filtered. -/
theorem applyOps_rebuilt (s : TableState ρ) (ops : List (TableOp ρ))
    (hs : s.data = s.allRows.filter s.filter)
    (hops : ∀ op ∈ ops, isSortOp op = false) :
    (applyOps s ops).data = (applyOps s ops).allRows.filter (applyOps s ops).filter := by
  induction ops generalizing s with
  | nil => exact hs
  | cons op t ih =>
    have hop : (applyOp s op).data = (applyOp s op).allRows.filter (applyOp s op).filter := by
      cases op with
      | setRowsOp rows => rfl
      | setFilterOp f => rfl
      | sortByColumnOp idx =>
        simpa [isSortOp] using hops _ (List.mem_cons_self _ _)
    exact ih (applyOp s op) hop (fun o ho => hops o (List.mem_cons_of_mem _ ho))

/-- Claim C3: after any sequence of setRows, setFilter and sortByColumn calls
starting from a freshly constructed table, FilteredView is a subsequence of
the latest RowSet under the latest filter: every element of FilteredView is an
element of RowSet, every record in it passes the current filter predicate, and
when no explicit sort has been applied the relative order is RowSet order
(FilteredView is a sublist of RowSet). -/
theorem claim_C3 (rows : List ρ) (filter : Option (ρ → Bool))
    (colSort : List (Option (ρ → ρ → Int))) (pageSize : Nat) (ops : List (TableOp ρ)) :
    (∀ r ∈ (applyOps (initTable rows filter colSort pageSize) ops).data,
        r ∈ (applyOps (initTable rows filter colSort pageSize) ops).allRows) ∧
    (∀ r ∈ (applyOps (initTable rows filter colSort pageSize) ops).data,
        (applyOps (initTable rows filter colSort pageSize) ops).filter r = true) ∧
    ((∀ op ∈ ops, isSortOp op = false) →
        (applyOps (initTable rows filter colSort pageSize) ops).data.Sublist
          (applyOps (initTable rows filter colSort pageSize) ops).allRows) := by
  have inv := applyOps_mem_inv (initTable rows filter colSort pageSize) ops
    (fun r hr => (List.mem_filter.1 hr).1) (fun r hr => (List.mem_filter.1 hr).2)
  refine ⟨inv.1, inv.2, fun hops => ?_⟩
  rw [applyOps_rebuilt (initTable rows filter colSort pageSize) ops rfl hops]
  exact List.filter_sublist _

/-- Witness for claim C3 at concrete inputs. -/
theorem claim_C3_witness :
    2 ∈ (applyOps exC3 exC3ops).allRows ∧
    (applyOps exC3 exC3ops).data.Sublist (applyOps exC3 exC3ops).allRows :=
  ⟨(claim_C3 [1, 2, 3] (some fun n => decide (n < 3)) [] 10 exC3ops).1 2 (by decide),
   (claim_C3 [1, 2, 3] (some fun n => decide (n < 3)) [] 10 exC3ops).2.2 (by decide)⟩

/-- Claim C4: clicking the active sort column reverses FilteredView exactly
(ties included) and flips the ascending flag; clicking a different sortable
column sorts FilteredView by that column comparator ascending (a permutation,
sorted whenever the comparator is transitive and total) and installs
`{idx, asc: true}`; both mutating cases reset the page to 0; a column without
a comparator is a complete no-op. -/
theorem claim_C4 (s : TableState ρ) (idx : Nat) :
    (s.colSort.getD idx none = none → onSort s idx = s) ∧
    (∀ cmp si, s.colSort.getD idx none = some cmp → s.sortInfo = some si →
        si.idx = idx →
        (onSort s idx).data = s.data.reverse ∧
        (onSort s idx).sortInfo = some { idx := idx, asc := !si.asc } ∧
        (onSort s idx).page = 0) ∧
    (∀ cmp, s.colSort.getD idx none = some cmp →
        (∀ si, s.sortInfo = some si → si.idx ≠ idx) →
        ((onSort s idx).data.Perm s.data ∧
         (onSort s idx).sortInfo = some { idx := idx, asc := true } ∧
         (onSort s idx).page = 0) ∧
        ((∀ a b c : ρ, jsSortLe cmp a b = true → jsSortLe cmp b c = true →
             jsSortLe cmp a c = true) →
         (∀ a b : ρ, (jsSortLe cmp a b || jsSortLe cmp b a) = true) →
         (onSort s idx).data.Pairwise (fun a b => jsSortLe cmp a b = true))) := by
  refine ⟨fun h => ?_, fun cmp si hc hsi hidx => ?_, fun cmp hc hne => ?_⟩
  · unfold onSort
    rw [h]
  · unfold onSort
    rw [hc, hsi]
    dsimp only
    rw [if_pos hidx]
    exact ⟨rfl, rfl, rfl⟩
  · unfold onSort
    rw [hc]
    cases hsi : s.sortInfo with
    | none =>
      exact ⟨⟨List.mergeSort_perm s.data (jsSortLe cmp), rfl, rfl⟩,
             fun ht htot => List.sorted_mergeSort ht htot s.data⟩
    | some si =>
      dsimp only
      rw [if_neg (hne si hsi)]
      exact ⟨⟨List.mergeSort_perm s.data (jsSortLe cmp), rfl, rfl⟩,
             fun ht htot => List.sorted_mergeSort ht htot s.data⟩

/-- Witness for claim C4 at concrete inputs. -/
theorem claim_C4_witness :
    ((onSort exC4 0).data.Perm exC4.data ∧
     (onSort exC4 0).sortInfo = some { idx := 0, asc := true } ∧
     (onSort exC4 0).page = 0) ∧
    (onSort exC4 0).data.Pairwise
      (fun a b => jsSortLe (fun a b : Nat => (a : Int) - (b : Int)) a b = true) := by
  have h := (claim_C4 exC4 0).2.2 (fun a b : Nat => (a : Int) - (b : Int)) rfl
    (fun si hh => Option.noConfusion hh)
  exact ⟨h.1, h.2
    (by
      intro a b c h1 h2
      simp only [jsSortLe, decide_eq_true_eq] at *
      omega)
    (by
      intro a b
      simp only [jsSortLe, Bool.or_eq_true, decide_eq_true_eq]
      omega)⟩

/-! ## Severity reduction lemmas (validation engine) -/

/-- The value of `classes.indexOf` on an arbitrary class string. -/
theorem classesIndexOf_char (c : String) :
    classesIndexOf c =
      if c = "has-success" then 1
      else if c = "has-warning" then 2
      else if c = "has-error" then 3
      else -1 := by
  by_cases h1 : c = "has-success"
  · subst h1; rfl
  · by_cases h2 : c = "has-warning"
    · subst h2; rfl
    · by_cases h3 : c = "has-error"
      · subst h3; rfl
      · rw [if_neg h1, if_neg h2, if_neg h3]
        have e1 : ¬("has-success" = c) := fun h => h1 h.symm
        have e2 : ¬("has-warning" = c) := fun h => h2 h.symm
        have e3 : ¬("has-error" = c) := fun h => h3 h.symm
        unfold classesIndexOf validationClasses
        rw [List.findIdx?_cons, List.findIdx?_cons, List.findIdx?_cons,
            List.findIdx?_cons, List.findIdx?_nil]
        simp [e1, e2, e3]

/-- The implementation fold over the Int class indices computes the natural
max-rank fold: a null entry keeps the accumulator (rank 0), an unknown class
has index -1 and is absorbed by the max with the non-negative accumulator. -/
theorem maxClassIndex_foldFrom (l : List (Option String)) :
    ∀ acc : Nat,
      l.foldl
        (fun prev c =>
          match c with
          | none => prev
          | some cls => max prev (classesIndexOf cls))
        (acc : Int) =
      ((l.foldl (fun m c => max m (jsRank c)) acc : Nat) : Int) := by
  induction l with
  | nil => intro acc; rfl
  | cons c t ih =>
    intro acc
    cases c with
    | none =>
      simp only [List.foldl_cons]
      have h : max acc (jsRank none) = acc := by simp [jsRank]
      rw [h]
      exact ih acc
    | some cls =>
      simp only [List.foldl_cons]
      have hstep :
          (max (acc : Int) (classesIndexOf cls)) = ((max acc (jsRank (some cls)) : Nat) : Int) := by
        rw [classesIndexOf_char cls]
        have hj : jsRank (some cls) =
            (if cls = "has-success" then 1 else if cls = "has-warning" then 2
             else if cls = "has-error" then 3 else 0) := rfl
        rw [hj]
        split_ifs with h1 h2 h3
        · rw [Nat.cast_max]; norm_num
        · rw [Nat.cast_max]; norm_num
        · rw [Nat.cast_max]; norm_num
        · rw [max_eq_left (by omega : (-1 : Int) ≤ (acc : Int)),
              max_eq_left (Nat.zero_le acc)]
      rw [hstep]
      exact ih (max acc (jsRank (some cls)))

/-- `maxClassIndex` is the natural max rank, cast to Int. -/
theorem maxClassIndex_eq_natMaxClass (l : List (Option String)) :
    maxClassIndex l = ((natMaxClass l : Nat) : Int) :=
  maxClassIndex_foldFrom l 0

/-- The max-rank fold with a seeded accumulator. -/
theorem natMaxClass_foldFrom (l : List (Option String)) :
    ∀ acc : Nat, l.foldl (fun m c => max m (jsRank c)) acc = max acc (natMaxClass l) := by
  induction l with
  | nil => intro acc; simp [natMaxClass]
  | cons c t ih =>
    intro acc
    have hl : natMaxClass (c :: t) = max (jsRank c) (natMaxClass t) := by
      show List.foldl _ (max 0 (jsRank c)) t = _
      rw [ih (max 0 (jsRank c)), max_eq_right (Nat.zero_le _)]
    rw [hl]
    show List.foldl _ (max acc (jsRank c)) t = _
    rw [ih (max acc (jsRank c)), max_assoc]

/-- Head step of the max rank. -/
theorem natMaxClass_cons (c : Option String) (t : List (Option String)) :
    natMaxClass (c :: t) = max (jsRank c) (natMaxClass t) := by
  show List.foldl _ (max 0 (jsRank c)) t = _
  rw [natMaxClass_foldFrom t (max 0 (jsRank c)), max_eq_right (Nat.zero_le _)]

/-- Ranks never exceed 3. -/
theorem jsRank_le_three (c : Option String) : jsRank c ≤ 3 := by
  cases c with
  | none => simp [jsRank]
  | some cls =>
    have hj : jsRank (some cls) =
        (if cls = "has-success" then 1 else if cls = "has-warning" then 2
         else if cls = "has-error" then 3 else 0) := rfl
    rw [hj]
    split_ifs <;> omega

/-- The max rank never exceeds 3. -/
theorem natMaxClass_le_three (l : List (Option String)) : natMaxClass l ≤ 3 := by
  induction l with
  | nil => simp [natMaxClass]
  | cons c t ih =>
    rw [natMaxClass_cons]
    exact max_le (jsRank_le_three c) ih

/-- Rank 3 is exactly the error class. -/
theorem jsRank_eq_three_iff (c : Option String) : jsRank c = 3 ↔ c = some "has-error" := by
  cases c with
  | none => simp [jsRank]
  | some cls =>
    have hj : jsRank (some cls) =
        (if cls = "has-success" then 1 else if cls = "has-warning" then 2
         else if cls = "has-error" then 3 else 0) := rfl
    rw [hj]
    split_ifs with h1 h2 h3
    · subst h1; decide
    · subst h2; decide
    · subst h3; simp
    · simp [h3]

/-- Rank 2 is exactly the warning class. -/
theorem jsRank_eq_two_iff (c : Option String) : jsRank c = 2 ↔ c = some "has-warning" := by
  cases c with
  | none => simp [jsRank]
  | some cls =>
    have hj : jsRank (some cls) =
        (if cls = "has-success" then 1 else if cls = "has-warning" then 2
         else if cls = "has-error" then 3 else 0) := rfl
    rw [hj]
    split_ifs with h1 h2 h3
    · subst h1; decide
    · subst h2; simp
    · subst h3; decide
    · simp [h2]

/-- Elements bound the max rank from below. -/
theorem jsRank_le_natMaxClass (l : List (Option String)) (c : Option String) (h : c ∈ l) :
    jsRank c ≤ natMaxClass l := by
  induction l with
  | nil => cases h
  | cons d t ih =>
    rw [natMaxClass_cons]
    rcases List.mem_cons.1 h with h | h
    · subst h; exact le_max_left _ _
    · exact le_trans (ih h) (le_max_right _ _)

/-- A positive max rank is attained by some element. -/
theorem natMaxClass_attained (l : List (Option String)) (h : natMaxClass l ≠ 0) :
    ∃ c ∈ l, jsRank c = natMaxClass l := by
  induction l with
  | nil => exact absurd (by simp [natMaxClass]) h
  | cons c t ih =>
    rw [natMaxClass_cons] at h ⊢
    rcases max_choice (jsRank c) (natMaxClass t) with he | he
    · exact ⟨c, List.mem_cons_self _ _, he.symm⟩
    · rw [he] at h ⊢
      obtain ⟨d, hd, hr⟩ := ih h
      exact ⟨d, List.mem_cons_of_mem _ hd, hr⟩

/-- A bound on every element bounds the max rank. -/
theorem natMaxClass_le_of_forall (l : List (Option String)) (k : Nat)
    (h : ∀ c ∈ l, jsRank c ≤ k) : natMaxClass l ≤ k := by
  induction l with
  | nil => simp [natMaxClass]
  | cons c t ih =>
    rw [natMaxClass_cons]
    exact max_le (h c (List.mem_cons_self _ _))
      (ih (fun d hd => h d (List.mem_cons_of_mem _ hd)))

/-- The max rank hits 3 exactly when the error class is present. -/
theorem natMaxClass_eq_three_iff (l : List (Option String)) :
    natMaxClass l = 3 ↔ some "has-error" ∈ l := by
  constructor
  · intro h
    obtain ⟨c, hc, hr⟩ := natMaxClass_attained l (by omega)
    rw [h] at hr
    exact (jsRank_eq_three_iff c).1 hr ▸ hc
  · intro h
    have h1 := jsRank_le_natMaxClass l _ h
    rw [(jsRank_eq_three_iff _).2 rfl] at h1
    have h2 := natMaxClass_le_three l
    omega

/-- Without the error class, the max rank hits 2 exactly when the warning
class is present. -/
theorem natMaxClass_eq_two_iff (l : List (Option String))
    (herr : some "has-error" ∉ l) :
    natMaxClass l = 2 ↔ some "has-warning" ∈ l := by
  constructor
  · intro h
    obtain ⟨c, hc, hr⟩ := natMaxClass_attained l (by omega)
    rw [h] at hr
    exact (jsRank_eq_two_iff c).1 hr ▸ hc
  · intro h
    have h1 := jsRank_le_natMaxClass l _ h
    rw [(jsRank_eq_two_iff _).2 rfl] at h1
    have h2 : natMaxClass l ≤ 2 := by
      refine natMaxClass_le_of_forall l 2 (fun c hc => ?_)
      have h3 := jsRank_le_three c
      rcases Nat.lt_or_ge (jsRank c) 3 with h4 | h4
      · omega
      · have h5 : jsRank c = 3 := by omega
        exact absurd ((jsRank_eq_three_iff c).1 h5 ▸ hc) herr
    omega

/-- `_applyValidationClasses` computes the class of the max rank: the `if
maxIndex > 0` gate coincides with `classes.getD` at 0, whose entry is null. -/
theorem applyValidationClasses_eq (l : List (Option String)) :
    applyValidationClasses l = severityClass (natMaxClass l) := by
  unfold applyValidationClasses
  rw [maxClassIndex_eq_natMaxClass]
  by_cases h : 0 < natMaxClass l
  · rw [if_pos (by exact_mod_cast h)]
    simp [severityClass, Int.toNat_natCast]
  · have h0 : natMaxClass l = 0 := by omega
    rw [h0]
    simp [severityClass, validationClasses]

/-- Claim C8: the group reduction of `_applyValidationClasses` implements the
spec max-severity rule over none < success < warning < error with absent
entries counting as none (for class lists drawn from the known classes); in
particular, the spec scenario - group g with field a whose rule returns error
and field b whose rule returns nothing - resolves g to has-error, both at the
reduction itself and through a full `validate` pass. -/
theorem claim_C8 :
    (∀ l : List (Option String), (∀ c ∈ l, c ∈ validationClasses) →
        applyValidationClasses l = severityClass (specMaxSeverity l)) ∧
    applyValidationClasses [some "has-error", none] = some "has-error" ∧
    validateResult scenarioC8 = some false ∧
    validateApplied scenarioC8 = some [some "has-error"] := by
  refine ⟨fun l hv => ?_, by decide, by decide, by decide⟩
  have hrank : ∀ c ∈ l, severityRank c = jsRank c := by
    intro c hc
    have := hv c hc
    simp only [validationClasses, List.mem_cons, List.not_mem_nil, or_false] at this
    rcases this with h | h | h | h <;> subst h <;> decide
  have hfold : specMaxSeverity l = natMaxClass l := by
    unfold specMaxSeverity natMaxClass
    exact List.foldl_ext _ _ 0 (fun a c hc => by rw [hrank c hc])
  rw [hfold]
  exact applyValidationClasses_eq l

/-- Witness for claim C8 at a concrete class list. -/
theorem claim_C8_witness :
    applyValidationClasses [some "has-warning", none] =
      severityClass (specMaxSeverity [some "has-warning", none]) :=
  claim_C8.1 [some "has-warning", none] (by decide)

/-! ## Per-control loop: one-step reductions -/

/-- Step: an absent skippable control is skipped. -/
theorem validateControls_cons_skip (cr : ControlEnv) (n : String) (st : VSettings)
    (t : List (String × VSettings)) (cache : List (String × List (String × Option String)))
    (applied : List (Option String)) (hn : cr n = none)
    (hsk : (st.mayNotExist || st.generated) = true) :
    validateControls ((n, st) :: t) cr cache applied =
      validateControls t cr cache applied := by
  conv_lhs => unfold validateControls
  rw [hn]
  dsimp only
  rw [if_pos hsk]

/-- Step: an absent non-skippable control throws. -/
theorem validateControls_cons_missing (cr : ControlEnv) (n : String) (st : VSettings)
    (t : List (String × VSettings)) (cache : List (String × List (String × Option String)))
    (applied : List (Option String)) (hn : cr n = none)
    (hsk : ¬(st.mayNotExist || st.generated) = true) :
    validateControls ((n, st) :: t) cr cache applied =
      Except.error ("Validation setup failed - there is no control named " ++ n) := by
  conv_lhs => unfold validateControls
  rw [hn]
  dsimp only
  rw [if_neg hsk]

/-- Step: a present non-group control applies its class immediately. -/
theorem validateControls_cons_nogroup (cr : ControlEnv) (n : String) (st : VSettings)
    (t : List (String × VSettings)) (cache : List (String × List (String × Option String)))
    (applied : List (Option String)) (res : Option String) (hn : cr n = some res)
    (hg : st.group = none) :
    validateControls ((n, st) :: t) cr cache applied =
      validateControls t cr cache (applied ++ [applyValidationClasses [res]]) := by
  conv_lhs => unfold validateControls
  rw [hn]
  dsimp only
  rw [hg]

/-- Step: a present group control caches its class. -/
theorem validateControls_cons_group (cr : ControlEnv) (n : String) (st : VSettings)
    (t : List (String × VSettings)) (cache : List (String × List (String × Option String)))
    (applied : List (Option String)) (res : Option String) (g : String)
    (hn : cr n = some res) (hg : st.group = some g) :
    validateControls ((n, st) :: t) cr cache applied =
      validateControls t cr (updGroup cache g n res) applied := by
  conv_lhs => unfold validateControls
  rw [hn]
  dsimp only
  rw [hg]

/-- The per-control loop never throws when every absent control is skippable,
and produces exactly the non-group classes plus the folded cache writes. -/
theorem validateControls_ok (cr : ControlEnv) (vs : List (String × VSettings)) :
    (∀ p ∈ vs, cr p.1 = none → (p.2.mayNotExist || p.2.generated) = true) →
    ∀ cache applied,
      validateControls vs cr cache applied =
        Except.ok (applied ++ ngClasses vs cr, applyUpds cache (gUpds vs cr)) := by
  induction vs with
  | nil =>
    intro _ cache applied
    simp [validateControls, ngClasses, gUpds, applyUpds]
  | cons p t ih =>
    intro hres cache applied
    obtain ⟨n, st⟩ := p
    have iht := ih (fun q hq => hres q (List.mem_cons_of_mem _ hq))
    cases hcr : cr n with
    | none =>
      have hskip : (st.mayNotExist || st.generated) = true :=
        hres (n, st) (List.mem_cons_self _ _) hcr
      have hng : ngClasses ((n, st) :: t) cr = ngClasses t cr := by
        conv_lhs => unfold ngClasses
        rw [hcr]
      have hgu : gUpds ((n, st) :: t) cr = gUpds t cr := by
        conv_lhs => unfold gUpds
        rw [hcr]
      rw [validateControls_cons_skip cr n st t cache applied hcr hskip, hng, hgu]
      exact iht cache applied
    | some res =>
      cases hg : st.group with
      | none =>
        have hng : ngClasses ((n, st) :: t) cr =
            applyValidationClasses [res] :: ngClasses t cr := by
          conv_lhs => unfold ngClasses
          rw [hcr]
          dsimp only
          rw [hg]
        have hgu : gUpds ((n, st) :: t) cr = gUpds t cr := by
          conv_lhs => unfold gUpds
          rw [hcr]
          dsimp only
          rw [hg]
        rw [validateControls_cons_nogroup cr n st t cache applied res hcr hg, hng, hgu,
            iht cache (applied ++ [applyValidationClasses [res]]), List.append_assoc]
        rfl
      | some g =>
        have hng : ngClasses ((n, st) :: t) cr = ngClasses t cr := by
          conv_lhs => unfold ngClasses
          rw [hcr]
          dsimp only
          rw [hg]
        have hgu : gUpds ((n, st) :: t) cr = (g, n, res) :: gUpds t cr := by
          conv_lhs => unfold gUpds
          rw [hcr]
          dsimp only
          rw [hg]
        rw [validateControls_cons_group cr n st t cache applied res g hcr hg, hng, hgu]
        exact iht (updGroup cache g n res) applied

/-! ## Group-cache lookup lemmas -/

/-- After writing (n, v), looking n up in the control list finds v. -/
theorem updEntry_find_self (ctrls : List (String × Option String)) (n : String)
    (v : Option String) :
    (updEntry ctrls n v).find? (fun q => q.1 == n) = some (n, v) := by
  induction ctrls with
  | nil =>
    show List.find? _ [(n, v)] = _
    rw [List.find?_cons_of_pos _ (by simp)]
  | cons p t ih =>
    obtain ⟨m, w⟩ := p
    by_cases h : m = n
    · have he : updEntry ((m, w) :: t) n v = (m, v) :: t := by
        conv_lhs => unfold updEntry
        rw [if_pos h]
      rw [he, List.find?_cons_of_pos _ (by simp [h]), h]
    · have he : updEntry ((m, w) :: t) n v = (m, w) :: updEntry t n v := by
        conv_lhs => unfold updEntry
        rw [if_neg h]
      rw [he, List.find?_cons_of_neg _ (by simp [h]), ih]

/-- Writing one control leaves lookups of other controls unchanged. -/
theorem updEntry_find_other (ctrls : List (String × Option String)) (m n : String)
    (v : Option String) (h : m ≠ n) :
    (updEntry ctrls m v).find? (fun q => q.1 == n) =
      ctrls.find? (fun q => q.1 == n) := by
  induction ctrls with
  | nil =>
    show List.find? _ [(m, v)] = List.find? _ []
    rw [List.find?_cons_of_neg _ (by simp [h]), List.find?_nil]
  | cons p t ih =>
    obtain ⟨a, b⟩ := p
    by_cases ha : a = m
    · have he : updEntry ((a, b) :: t) m v = (a, v) :: t := by
        conv_lhs => unfold updEntry
        rw [if_pos ha]
      have han : ¬a = n := fun e => h (ha.symm.trans e)
      rw [he, List.find?_cons_of_neg _ (by simp [han]),
          List.find?_cons_of_neg _ (by simp [han])]
    · have he : updEntry ((a, b) :: t) m v = (a, b) :: updEntry t m v := by
        conv_lhs => unfold updEntry
        rw [if_neg ha]
      rw [he]
      by_cases han : a = n
      · rw [List.find?_cons_of_pos _ (by simp [han]),
            List.find?_cons_of_pos _ (by simp [han])]
      · rw [List.find?_cons_of_neg _ (by simp [han]),
            List.find?_cons_of_neg _ (by simp [han]), ih]

/-- Rewriting the value already stored is a no-op. -/
theorem updEntry_noop (ctrls : List (String × Option String)) (n : String)
    (v : Option String) (h : ctrls.find? (fun q => q.1 == n) = some (n, v)) :
    updEntry ctrls n v = ctrls := by
  induction ctrls with
  | nil => simp [List.find?_nil] at h
  | cons p t ih =>
    obtain ⟨a, b⟩ := p
    by_cases ha : a = n
    · rw [List.find?_cons_of_pos _ (by simp [ha])] at h
      have hb : b = v := congrArg Prod.snd (Option.some.inj h)
      conv_lhs => unfold updEntry
      rw [if_pos ha, ← hb]
    · rw [List.find?_cons_of_neg _ (by simp [ha])] at h
      conv_lhs => unfold updEntry
      rw [if_neg ha, ih h]

/-- Looking up in a cache whose head is the wanted group. -/
theorem cacheLookup_cons_eq (g : String) (ctrls : List (String × Option String))
    (t : List (String × List (String × Option String))) (n : String) :
    cacheLookup ((g, ctrls) :: t) g n =
      (match ctrls.find? (fun q => q.1 == n) with
       | none => none
       | some q => some q.2) := by
  unfold cacheLookup
  rw [List.find?_cons_of_pos _ (by simp)]

/-- Looking up skips a head of a different group. -/
theorem cacheLookup_cons_ne (g' : String) (ctrls : List (String × Option String))
    (t : List (String × List (String × Option String))) (g n : String) (h : g' ≠ g) :
    cacheLookup ((g', ctrls) :: t) g n = cacheLookup t g n := by
  unfold cacheLookup
  rw [List.find?_cons_of_neg _ (by simp [h])]

/-- A cache write is immediately readable. -/
theorem cacheLookup_updGroup_self (cache : List (String × List (String × Option String)))
    (g n : String) (v : Option String) :
    cacheLookup (updGroup cache g n v) g n = some v := by
  induction cache with
  | nil =>
    show cacheLookup [(g, [(n, v)])] g n = some v
    rw [cacheLookup_cons_eq, List.find?_cons_of_pos _ (by simp)]
  | cons p t ih =>
    obtain ⟨g', ctrls⟩ := p
    by_cases h : g' = g
    · have he : updGroup ((g', ctrls) :: t) g n v = (g', updEntry ctrls n v) :: t := by
        conv_lhs => unfold updGroup
        rw [if_pos h]
      rw [he, h, cacheLookup_cons_eq, updEntry_find_self]
    · have he : updGroup ((g', ctrls) :: t) g n v = (g', ctrls) :: updGroup t g n v := by
        conv_lhs => unfold updGroup
        rw [if_neg h]
      rw [he, cacheLookup_cons_ne _ _ _ _ _ h, ih]

/-- A cache write to one control leaves every other control lookup alone. -/
theorem cacheLookup_updGroup_other (cache : List (String × List (String × Option String)))
    (g2 m : String) (w : Option String) (g n : String) (hmn : m ≠ n) :
    cacheLookup (updGroup cache g2 m w) g n = cacheLookup cache g n := by
  induction cache with
  | nil =>
    show cacheLookup [(g2, [(m, w)])] g n = cacheLookup [] g n
    by_cases h : g2 = g
    · rw [h, cacheLookup_cons_eq, List.find?_cons_of_neg _ (by simp [hmn]), List.find?_nil]
      rfl
    · rw [cacheLookup_cons_ne _ _ _ _ _ h]
  | cons p t ih =>
    obtain ⟨g', ctrls⟩ := p
    by_cases h : g' = g2
    · have he : updGroup ((g', ctrls) :: t) g2 m w = (g', updEntry ctrls m w) :: t := by
        conv_lhs => unfold updGroup
        rw [if_pos h]
      rw [he]
      by_cases hg : g' = g
      · rw [hg, cacheLookup_cons_eq, cacheLookup_cons_eq, updEntry_find_other _ _ _ _ hmn]
      · rw [cacheLookup_cons_ne _ _ _ _ _ hg, cacheLookup_cons_ne _ _ _ _ _ hg]
    · have he : updGroup ((g', ctrls) :: t) g2 m w = (g', ctrls) :: updGroup t g2 m w := by
        conv_lhs => unfold updGroup
        rw [if_neg h]
      rw [he]
      by_cases hg : g' = g
      · rw [hg, cacheLookup_cons_eq, cacheLookup_cons_eq]
      · rw [cacheLookup_cons_ne _ _ _ _ _ hg, cacheLookup_cons_ne _ _ _ _ _ hg, ih]

/-- Rewriting a stored value is a cache no-op. -/
theorem updGroup_noop (cache : List (String × List (String × Option String)))
    (g n : String) (v : Option String) (h : cacheLookup cache g n = some v) :
    updGroup cache g n v = cache := by
  induction cache with
  | nil => simp [cacheLookup, List.find?_nil] at h
  | cons p t ih =>
    obtain ⟨g', ctrls⟩ := p
    by_cases hg : g' = g
    · subst hg
      rw [cacheLookup_cons_eq] at h
      cases hf : ctrls.find? (fun q => q.1 == n) with
      | none => rw [hf] at h; exact absurd h (by simp)
      | some q =>
        rw [hf] at h
        have hq2 : q.2 = v := Option.some.inj h
        have hq1 : q.1 = n := by simpa using List.find?_some hf
        have hfq : ctrls.find? (fun q => q.1 == n) = some (n, v) := by
          rw [hf]
          exact congrArg some (Prod.ext hq1 hq2)
        conv_lhs => unfold updGroup
        rw [if_pos rfl, updEntry_noop ctrls n v hfq]
    · rw [cacheLookup_cons_ne _ _ _ _ _ hg] at h
      conv_lhs => unfold updGroup
      rw [if_neg hg, ih h]

/-- Writes to other controls do not disturb a lookup. -/
theorem cacheLookup_applyUpds_not_mem (us : List (String × String × Option String)) :
    ∀ cache g n, n ∉ updNames us →
      cacheLookup (applyUpds cache us) g n = cacheLookup cache g n := by
  induction us with
  | nil => intro cache g n _; rfl
  | cons u rest ih =>
    intro cache g n h
    obtain ⟨g2, m, w⟩ := u
    have hm : m ≠ n := by
      intro e
      apply h
      show n ∈ m :: updNames rest
      rw [e]
      exact List.mem_cons_self _ _
    have ht : n ∉ updNames rest := fun hh => h (List.mem_cons_of_mem _ hh)
    show cacheLookup (applyUpds (updGroup cache g2 m w) rest) g n = _
    rw [ih _ g n ht, cacheLookup_updGroup_other _ _ _ _ _ _ hm]

/-- With no duplicate control names among the writes, every write is readable
after the fold. -/
theorem cacheLookup_applyUpds_mem (us : List (String × String × Option String)) :
    (updNames us).Nodup →
    ∀ cache g n v, (g, n, v) ∈ us →
      cacheLookup (applyUpds cache us) g n = some v := by
  induction us with
  | nil => intro _ cache g n v h; cases h
  | cons u rest ih =>
    intro hnd cache g n v h
    obtain ⟨g2, m, w⟩ := u
    have hnd2 : (m :: updNames rest).Nodup := hnd
    have hm : m ∉ updNames rest := (List.nodup_cons.1 hnd2).1
    have hndr : (updNames rest).Nodup := (List.nodup_cons.1 hnd2).2
    rcases List.mem_cons.1 h with he | hmem
    · have hg : g = g2 := congrArg Prod.fst he
      have hn : n = m := congrArg (fun p => p.2.1) he
      have hv : v = w := congrArg (fun p => p.2.2) he
      show cacheLookup (applyUpds (updGroup cache g2 m w) rest) g n = some v
      rw [hg, hn, hv,
          cacheLookup_applyUpds_not_mem rest _ g2 m hm, cacheLookup_updGroup_self]
    · show cacheLookup (applyUpds (updGroup cache g2 m w) rest) g n = some v
      exact ih hndr _ g n v hmem

/-- Replaying writes whose values are already stored is a no-op. -/
theorem applyUpds_noop (us : List (String × String × Option String)) :
    ∀ cache, (∀ g n v, (g, n, v) ∈ us → cacheLookup cache g n = some v) →
      applyUpds cache us = cache := by
  induction us with
  | nil => intro cache _; rfl
  | cons u rest ih =>
    intro cache h
    obtain ⟨g, n, v⟩ := u
    have h1 : cacheLookup cache g n = some v := h g n v (List.mem_cons_self _ _)
    show applyUpds (updGroup cache g n v) rest = cache
    rw [updGroup_noop cache g n v h1]
    exact ih cache (fun g' n' v' hm => h g' n' v' (List.mem_cons_of_mem _ hm))

/-- The cache writes touch a subsequence of the declared control names. -/
theorem gUpds_names_sublist (vs : List (String × VSettings)) (cr : ControlEnv) :
    (updNames (gUpds vs cr)).Sublist (vs.map Prod.fst) := by
  induction vs with
  | nil => simp [gUpds, updNames]
  | cons p t ih =>
    obtain ⟨n, st⟩ := p
    show (updNames (gUpds ((n, st) :: t) cr)).Sublist (n :: t.map Prod.fst)
    cases hcr : cr n with
    | none =>
      have he : gUpds ((n, st) :: t) cr = gUpds t cr := by
        conv_lhs => unfold gUpds
        rw [hcr]
      rw [he]
      exact ih.cons n
    | some res =>
      cases hg : st.group with
      | none =>
        have he : gUpds ((n, st) :: t) cr = gUpds t cr := by
          conv_lhs => unfold gUpds
          rw [hcr]
          dsimp only
          rw [hg]
        rw [he]
        exact ih.cons n
      | some g =>
        have he : gUpds ((n, st) :: t) cr = (g, n, res) :: gUpds t cr := by
          conv_lhs => unfold gUpds
          rw [hcr]
          dsimp only
          rw [hg]
        rw [he]
        show (n :: updNames (gUpds t cr)).Sublist (n :: t.map Prod.fst)
        exact ih.cons₂ n

/-- Dropping an absent skippable control from the compiled validations does
not change the per-control loop. -/
theorem validateControls_skip (cr : ControlEnv) (n : String) (st : VSettings)
    (hn : cr n = none) (hsk : (st.mayNotExist || st.generated) = true)
    (pre post : List (String × VSettings)) :
    ∀ cache applied,
      validateControls (pre ++ (n, st) :: post) cr cache applied =
        validateControls (pre ++ post) cr cache applied := by
  induction pre with
  | nil =>
    intro cache applied
    exact validateControls_cons_skip cr n st post cache applied hn hsk
  | cons p t ih =>
    intro cache applied
    obtain ⟨m, stm⟩ := p
    simp only [List.cons_append]
    cases hcr : cr m with
    | none =>
      by_cases hs : (stm.mayNotExist || stm.generated) = true
      · rw [validateControls_cons_skip cr m stm _ cache applied hcr hs,
            validateControls_cons_skip cr m stm _ cache applied hcr hs]
        exact ih cache applied
      · rw [validateControls_cons_missing cr m stm _ cache applied hcr hs,
            validateControls_cons_missing cr m stm _ cache applied hcr hs]
    | some res =>
      cases hgr : stm.group with
      | none =>
        rw [validateControls_cons_nogroup cr m stm _ cache applied res hcr hgr,
            validateControls_cons_nogroup cr m stm _ cache applied res hcr hgr]
        exact ih cache (applied ++ [applyValidationClasses [res]])
      | some g =>
        rw [validateControls_cons_group cr m stm _ cache applied res g hcr hgr,
            validateControls_cons_group cr m stm _ cache applied res g hcr hgr]
        exact ih (updGroup cache g m res) applied

/-- `contains` agrees with membership on class lists. -/
theorem containsClass_iff (l : List (Option String)) (x : Option String) :
    l.contains x = true ↔ x ∈ l := List.elem_iff

/-- When nothing throws, `validate` is the warning-mode decision over the
applied classes of the pass. -/
theorem validate_ok_form (s : VState)
    (hres : ∀ p ∈ s.validations, s.controlResult p.1 = none →
        (p.2.mayNotExist || p.2.generated) = true) :
    validate s =
      (if (appliedOf s).contains (some "has-error") then Except.ok (false, runState s)
       else if s.warningButton && !s.warningMode &&
           (appliedOf s).contains (some "has-warning") then
         Except.ok (false, { runState s with warningMode := true })
       else Except.ok (true, runState s)) := by
  have hVC := validateControls_ok s.controlResult s.validations hres s.groupClasses []
  have hApp : appliedOf s =
      ngClasses s.validations s.controlResult ++
        resolveGroups s.controlResult
          (applyUpds s.groupClasses (gUpds s.validations s.controlResult)) := by
    unfold appliedOf
    rw [hVC]
    dsimp only
    rw [List.nil_append]
  unfold validate
  rw [hVC]
  dsimp only
  rw [List.nil_append, ← hApp]
  unfold runState
  rfl

/-- Claim C7: the full-form validation pass.  With every declared control
either present or marked skippable, `validate` never throws and returns
failure exactly when the severity classes applied across all fields and
groups reach has-error, or - with the warning button enabled and not yet
acknowledged - reach has-warning; in the warnings-only case the failure is
the distinct needs-acknowledgement outcome: the pass flips warningMode on
(relabelling the submit button), and the immediately following pass - the
caller resubmitting to confirm - succeeds; declared controls that are marked
may-not-exist or generated and are absent from the field collection are
skipped: dropping them from the compiled validations changes neither the
result nor the applied classes. -/
theorem claim_C7 (s : VState)
    (hres : ∀ p ∈ s.validations, s.controlResult p.1 = none →
        (p.2.mayNotExist || p.2.generated) = true)
    (hnodup : (s.validations.map Prod.fst).Nodup) :
    (∃ r s1, validate s = Except.ok (r, s1) ∧ s1.appliedClasses = appliedOf s ∧
        (r = false ↔ (natMaxClass (appliedOf s) = 3 ∨
          (s.warningButton = true ∧ s.warningMode = false ∧
            natMaxClass (appliedOf s) = 2)))) ∧
    (s.warningButton = true → s.warningMode = false →
        natMaxClass (appliedOf s) = 2 →
        ∃ s1, validate s = Except.ok (false, s1) ∧ s1.warningMode = true ∧
          ∃ s2, validate s1 = Except.ok (true, s2)) ∧
    (∀ pre post n st, s.validations = pre ++ (n, st) :: post →
        s.controlResult n = none → (st.mayNotExist || st.generated) = true →
        validateResult s = validateResult { s with validations := pre ++ post } ∧
        validateApplied s = validateApplied { s with validations := pre ++ post }) := by
  have hform := validate_ok_form s hres
  refine ⟨?_, ?_, ?_⟩
  · -- the exact failure condition
    by_cases hE : (appliedOf s).contains (some "has-error") = true
    · rw [hE] at hform
      rw [if_pos rfl] at hform
      refine ⟨false, runState s, hform, rfl, ?_⟩
      have h3 : natMaxClass (appliedOf s) = 3 :=
        (natMaxClass_eq_three_iff _).2 ((containsClass_iff _ _).1 hE)
      exact ⟨fun _ => Or.inl h3, fun _ => rfl⟩
    · have hEf : (appliedOf s).contains (some "has-error") = false :=
        Bool.eq_false_iff.2 hE
      have hEm : some "has-error" ∉ appliedOf s :=
        fun hm => hE ((containsClass_iff _ _).2 hm)
      have hn3 : natMaxClass (appliedOf s) ≠ 3 :=
        fun h3 => hEm ((natMaxClass_eq_three_iff _).1 h3)
      rw [hEf] at hform
      rw [if_neg (by simp)] at hform
      by_cases hW : (s.warningButton && !s.warningMode &&
          (appliedOf s).contains (some "has-warning")) = true
      · rw [hW] at hform
        rw [if_pos rfl] at hform
        refine ⟨false, { runState s with warningMode := true }, hform, rfl, ?_⟩
        have hwb : s.warningButton = true := by
          have := hW
          simp only [Bool.and_eq_true] at this
          exact this.1.1
        have hwm : s.warningMode = false := by
          have := hW
          simp only [Bool.and_eq_true, Bool.not_eq_true'] at this
          exact this.1.2
        have hwc : (appliedOf s).contains (some "has-warning") = true := by
          have := hW
          simp only [Bool.and_eq_true] at this
          exact this.2
        have h2 : natMaxClass (appliedOf s) = 2 :=
          (natMaxClass_eq_two_iff _ hEm).2 ((containsClass_iff _ _).1 hwc)
        exact ⟨fun _ => Or.inr ⟨hwb, hwm, h2⟩, fun _ => rfl⟩
      · have hWf : (s.warningButton && !s.warningMode &&
            (appliedOf s).contains (some "has-warning")) = false :=
          Bool.eq_false_iff.2 hW
        rw [hWf] at hform
        rw [if_neg (by simp)] at hform
        refine ⟨true, runState s, hform, rfl, ?_⟩
        constructor
        · intro h
          exact absurd h (by simp)
        · intro h
          rcases h with h3 | ⟨hwb, hwm, h2⟩
          · exact absurd h3 hn3
          · have hwc : (appliedOf s).contains (some "has-warning") = true :=
              (containsClass_iff _ _).2 ((natMaxClass_eq_two_iff _ hEm).1 h2)
            rw [hwb, hwm, hwc] at hWf
            simp at hWf
  · -- the needs-acknowledgement flow
    intro hwb hwm h2
    have hEm : some "has-error" ∉ appliedOf s := by
      intro hm
      have h3 := (natMaxClass_eq_three_iff _).2 hm
      omega
    have hEf : (appliedOf s).contains (some "has-error") = false :=
      Bool.eq_false_iff.2 (fun h => hEm ((containsClass_iff _ _).1 h))
    have hwc : (appliedOf s).contains (some "has-warning") = true :=
      (containsClass_iff _ _).2 ((natMaxClass_eq_two_iff _ hEm).1 h2)
    rw [hEf] at hform
    rw [if_neg (by simp)] at hform
    rw [hwb, hwm, hwc] at hform
    rw [if_pos (by simp)] at hform
    refine ⟨{ runState s with warningMode := true }, hform, rfl, ?_⟩
    -- the confirming second pass
    have hres1 : ∀ p ∈ ({ runState s with warningMode := true } : VState).validations,
        ({ runState s with warningMode := true } : VState).controlResult p.1 = none →
        (p.2.mayNotExist || p.2.generated) = true := fun p hp => hres p hp
    have hnodupUs : (updNames (gUpds s.validations s.controlResult)).Nodup :=
      List.Nodup.sublist (gUpds_names_sublist s.validations s.controlResult) hnodup
    have hidem : applyUpds
        (applyUpds s.groupClasses (gUpds s.validations s.controlResult))
        (gUpds s.validations s.controlResult) =
        applyUpds s.groupClasses (gUpds s.validations s.controlResult) :=
      applyUpds_noop _ _
        (fun g n v hm => cacheLookup_applyUpds_mem _ hnodupUs s.groupClasses g n v hm)
    have hApp1 : appliedOf { runState s with warningMode := true } = appliedOf s := by
      unfold appliedOf runState
      dsimp only
      rw [validateControls_ok s.controlResult s.validations hres
            (applyUpds s.groupClasses (gUpds s.validations s.controlResult)) [],
          validateControls_ok s.controlResult s.validations hres s.groupClasses []]
      dsimp only
      rw [hidem]
    have hform1 := validate_ok_form { runState s with warningMode := true } hres1
    rw [hApp1, hEf] at hform1
    rw [if_neg (by simp)] at hform1
    rw [if_neg (by simp)] at hform1
    exact ⟨runState { runState s with warningMode := true }, hform1⟩
  · -- skipping absent optional and generated controls
    intro pre post n st hvs hn hsk
    have hskip := validateControls_skip s.controlResult n st hn hsk pre post
    have hvc : validateControls s.validations s.controlResult s.groupClasses [] =
        validateControls (pre ++ post) s.controlResult s.groupClasses [] := by
      rw [hvs]
      exact hskip s.groupClasses []
    constructor
    · unfold validateResult validate
      dsimp only
      rw [hvc]
      cases h : validateControls (pre ++ post) s.controlResult s.groupClasses [] with
      | error e => rfl
      | ok p =>
        obtain ⟨applied, cache⟩ := p
        dsimp only
        split_ifs <;> rfl
    -- applied-classes equality
    · unfold validateApplied validate
      dsimp only
      rw [hvc]
      cases h : validateControls (pre ++ post) s.controlResult s.groupClasses [] with
      | error e => rfl
      | ok p =>
        obtain ⟨applied, cache⟩ := p
        dsimp only
        split_ifs <;> rfl

/-- Witness for claim C7: the warnings-only acknowledgement flow on exC7 - the
first pass fails and arms warning mode, the resubmission succeeds. -/
theorem claim_C7_witness :
    ∃ s1, validate exC7 = Except.ok (false, s1) ∧ s1.warningMode = true ∧
      ∃ s2, validate s1 = Except.ok (true, s2) :=
  (claim_C7 exC7 (by decide) (by decide)).2.1 rfl rfl (by decide)

end Baseview
